import Mathlib

/-!
Shallow embedding of the `gloo-net` HTTP layer (crates/net/src/http) --
the header codec (headers.rs), the body variant (body.rs), the request
builder/model (request.rs) and the response builder/model (response.rs) --
together with theorems settling the specification claims about it.

Strings are modelled as lists of characters (`List Char`), which matches
the visible-ASCII domain the header grammar lives in; a Rust panic
(`unwrap` on a failing value) is modelled as the error case of
`Except RustPanic`.
-/

namespace Gloo

/-- Rust panics (failed `unwrap` / `unwrap_throw`) are modelled as an
explicit error value of this single-constructor type. -/
inductive RustPanic
  | panic
deriving DecidableEq, Repr

deriving instance DecidableEq for Except

/-- Character-list strings: header names, header values and host (JS)
strings all live in this type. -/
abbrev Str := List Char

/-! ## Character predicates of the header grammar

These mirror, byte for byte, the validation tables of the Rust `http`
crate (`HeaderName`, `HeaderValue`) and of the WHATWG Fetch
specification (host `Headers` object). -/

/-- Token characters of the HTTP header-name grammar (RFC 7230 `tchar`),
as validated by the `http` crate for `HeaderName` and by the host
`Headers` object for names. Codes 33,35,36,37,38,39,42,43,45,46 are the
punctuation "!#$%&'*+-." and 94,95,96,124,126 are "^_|~" with backquote. -/
def isTokenChar (c : Char) : Bool :=
  decide ((48 ≤ c.toNat ∧ c.toNat ≤ 57) ∨ (65 ≤ c.toNat ∧ c.toNat ≤ 90) ∨
    (97 ≤ c.toNat ∧ c.toNat ≤ 122) ∨
    c.toNat = 33 ∨ c.toNat = 35 ∨ c.toNat = 36 ∨ c.toNat = 37 ∨ c.toNat = 38 ∨
    c.toNat = 39 ∨ c.toNat = 42 ∨ c.toNat = 43 ∨ c.toNat = 45 ∨ c.toNat = 46 ∨
    c.toNat = 94 ∨ c.toNat = 95 ∨ c.toNat = 96 ∨ c.toNat = 124 ∨ c.toNat = 126)

/-- Characters accepted by `http::HeaderValue::to_str` (visible ASCII
plus space and horizontal tab): `b >= 32 && b < 127 || b == b'\t'`. -/
def toStrOkChar (c : Char) : Bool :=
  decide ((32 ≤ c.toNat ∧ c.toNat ≤ 126) ∨ c.toNat = 9)

/-- Characters accepted by `http::HeaderValue::from_str` / `from_bytes`
(`is_valid`): `b >= 32 && b != 127 || b == b'\t'`. -/
def fromStrOkChar (c : Char) : Bool :=
  decide ((32 ≤ c.toNat ∧ c.toNat ≠ 127) ∨ c.toNat = 9)

/-- Characters forbidden in a host header value by the Fetch
specification: NUL, LF and CR. -/
def jsValueOkChar (c : Char) : Bool :=
  decide (c.toNat ≠ 0 ∧ c.toNat ≠ 10 ∧ c.toNat ≠ 13)

/-- HTTP whitespace bytes of the Fetch specification (TAB, LF, CR, SP). -/
def isHttpWs (c : Char) : Bool :=
  decide (c.toNat = 9 ∨ c.toNat = 10 ∨ c.toNat = 13 ∨ c.toNat = 32)

/-- ASCII uppercase letter. -/
def isUpperAscii (c : Char) : Bool :=
  decide (65 ≤ c.toNat ∧ c.toNat ≤ 90)

/-- ASCII lowercasing of one character, as done by byte-lowercasing in
both the `http` crate (header-name canonicalization) and the host. -/
def lowerChar (c : Char) : Char :=
  if 65 ≤ c.toNat ∧ c.toNat ≤ 90 then Char.ofNat (c.toNat + 32) else c

/-- ASCII lowercasing of a string. -/
def lowerStr (s : Str) : Str := s.map lowerChar

/-- Drop leading HTTP whitespace. -/
def trimLeadWs : Str → Str
  | [] => []
  | c :: cs => if isHttpWs c then trimLeadWs cs else c :: cs

/-- Strip leading and trailing HTTP whitespace: the "normalize" step the
host applies to a value passed to Headers.append. -/
def trimWs (s : Str) : Str :=
  (trimLeadWs (trimLeadWs s).reverse).reverse

/-! ## HeaderMap (the `http` crate side)

`http::HeaderMap` is a multimap from canonical (lowercase) header names
to values; it is modelled as an association list in insertion order.
`HeaderName` values are canonical by construction: parsing lowercases,
and the predefined constants are lowercase. -/

/-- Header name: invariant (maintained by all constructors of the `http`
crate) is nonempty lowercase token characters. -/
abbrev HeaderName := Str

/-- Header value: bytes validated by `HeaderValue::from_bytes`. -/
abbrev HeaderValue := Str

/-- The `http::HeaderMap` multimap, as an association list. -/
abbrev HeaderMap := List (HeaderName × HeaderValue)

/-- All values stored under a name (the multi-value view used to state
theorems; compares names exactly, since stored names are canonical). -/
def HeaderMap.getAll (m : HeaderMap) (n : HeaderName) : List HeaderValue :=
  (m.filter (fun p => decide (p.1 = n))).map Prod.snd

/-- Remove every entry under a name. -/
def HeaderMap.removeAll (m : HeaderMap) (n : HeaderName) : HeaderMap :=
  m.filter (fun p => decide (p.1 ≠ n))

/-- The `http::HeaderMap::insert` operation: replaces the first value
stored under the name, drops any further values under it, and appends a
fresh entry when the name is absent. -/
def HeaderMap.insertH : HeaderMap → HeaderName → HeaderValue → HeaderMap
  | [], n, v => [(n, v)]
  | p :: ps, n, v =>
    if p.1 = n then (n, v) :: HeaderMap.removeAll ps n
    else p :: HeaderMap.insertH ps n v

/-- The `http::HeaderMap::append` operation: adds one more value under
the name, keeping existing ones. -/
def HeaderMap.appendH (m : HeaderMap) (n : HeaderName) (v : HeaderValue) : HeaderMap :=
  m ++ [(n, v)]

/-- Collecting an iterator of pairs into a `HeaderMap`
(`FromIterator` goes through `Extend`, which adds each pair). -/
def collectHeaders (ps : List (HeaderName × HeaderValue)) : HeaderMap :=
  ps.foldl (fun m p => m.appendH p.1 p.2) []

/-! ## The host `Headers` object (web_sys / WHATWG Fetch)

The host header list keeps entries in append order; `Headers.append`
normalizes the value (strips surrounding HTTP whitespace) and validates
name and value; iteration ("sort and combine") yields lowercased names
in sorted order, with all values of one name joined by ", ".
(The modern set-cookie exemption from combining is not modelled; no
theorem below depends on it.) -/

/-- A host `web_sys::Headers` object: its header list. -/
abbrev JsHeaders := List (Str × Str)

/-- Host validity of a header name (a nonempty token). -/
def isJsHeaderName (n : Str) : Bool :=
  decide (n ≠ []) && n.all isTokenChar

/-- Host validity of a header value (no NUL, CR or LF). -/
def isJsHeaderValue (v : Str) : Bool :=
  v.all jsValueOkChar

/-- The host constructor: a fresh empty Headers object (never throws). -/
def JsHeaders.new : JsHeaders := []

/-- Host Headers.append: normalize the value, validate, then push the
entry at the end of the header list; a thrown host exception surfaces
through the callers' unwrap as a panic. -/
def JsHeaders.append (js : JsHeaders) (n v : Str) : Except RustPanic JsHeaders :=
  let v' := trimWs v
  if isJsHeaderName n && isJsHeaderValue v' then .ok (js ++ [(n, v')])
  else .error .panic

/-- Keys of a header list (lowercased), deduplicated. -/
def keyNames (js : JsHeaders) : List Str :=
  dedupKeys (js.map (fun p => lowerStr p.1))
where
  /-- Deduplicate, keeping one occurrence of each element. -/
  dedupKeys : List Str → List Str
    | [] => []
    | a :: as => if a ∈ as then dedupKeys as else a :: dedupKeys as

/-- All values stored under a (lowercased) key, in list order. -/
def valuesFor (js : JsHeaders) (k : Str) : List Str :=
  (js.filter (fun p => decide (lowerStr p.1 = k))).map Prod.snd

/-- Join a list of values with ", " (0x2C 0x20), the combine step. -/
def combineVals : List Str → Str
  | [] => []
  | [v] => v
  | v :: vs => v ++ [Char.ofNat 44, Char.ofNat 32] ++ combineVals vs

/-- Byte-wise lexicographic comparison on strings (Boolean, total). -/
def strLe (a b : Str) : Bool :=
  charsLe a b
where
  charsLe : List Char → List Char → Bool
    | [], _ => true
    | _ :: _, [] => false
    | a :: as, b :: bs =>
      if a.toNat < b.toNat then true
      else if b.toNat < a.toNat then false
      else charsLe as bs

/-- Insert one element into a sorted list (insertion sort step). -/
def insertLe (le : α → α → Bool) (a : α) : List α → List α
  | [] => [a]
  | b :: bs => if le a b then a :: b :: bs else b :: insertLe le a bs

/-- Insertion sort by a Boolean relation. -/
def sortLe (le : α → α → Bool) : List α → List α
  | [] => []
  | a :: as => insertLe le a (sortLe le as)

/-- Host Headers iteration, the Fetch "sort and combine" step: sorted
lowercased names, each with its values joined by ", ". -/
def JsHeaders.entries (js : JsHeaders) : List (Str × Str) :=
  (sortLe strLe (keyNames js)).map (fun k => (k, combineVals (valuesFor js k)))

/-! ## The header codec (headers.rs) -/

/-- The `HeaderValue::to_str` call of headers.rs line 12: succeeds only
on visible-ASCII values, with the failing `unwrap` as a panic. -/
def HeaderValue.toStr (v : HeaderValue) : Except RustPanic Str :=
  if v.all toStrOkChar then .ok v else .error .panic

/-- The `HeaderName::from_str(..).unwrap()` call of headers.rs line 28:
validates nonempty token characters and lowercases. -/
def HeaderName.parse (s : Str) : Except RustPanic HeaderName :=
  if decide (s ≠ []) && s.all isTokenChar then .ok (lowerStr s) else .error .panic

/-- The `HeaderValue::from_str(..).unwrap()` call of headers.rs line 29. -/
def HeaderValue.parse (s : Str) : Except RustPanic HeaderValue :=
  if s.all fromStrOkChar then .ok s else .error .panic

/-- The loop of `headers_to_js` (headers.rs lines 10-14): for each
(name, value) pair, `to_str().unwrap()` then `append(..).unwrap()`. -/
def headers_to_js_loop (js : JsHeaders) : HeaderMap → Except RustPanic JsHeaders
  | [] => .ok js
  | p :: ps =>
    match HeaderValue.toStr p.2 with
    | .error e => .error e
    | .ok s =>
      match JsHeaders.append js p.1 s with
      | .error e => .error e
      | .ok js' => headers_to_js_loop js' ps

/-- headers.rs `headers_to_js`: fresh host Headers object, then append
every pair of the map in iteration order. -/
def headers_to_js (m : HeaderMap) : Except RustPanic JsHeaders :=
  headers_to_js_loop JsHeaders.new m

/-- The collect loop of `headers_from_js` (headers.rs lines 23-34): for
each iterated host entry, parse name and value with `unwrap`, and extend
the map being collected. -/
def headers_from_js_loop (m : HeaderMap) : List (Str × Str) → Except RustPanic HeaderMap
  | [] => .ok m
  | e :: es =>
    match HeaderName.parse e.1 with
    | .error err => .error err
    | .ok n =>
      match HeaderValue.parse e.2 with
      | .error err => .error err
      | .ok v => headers_from_js_loop (m.appendH n v) es

/-- headers.rs `headers_from_js`: iterate the host object's entries and
collect the parsed pairs into a `HeaderMap`. -/
def headers_from_js (js : JsHeaders) : Except RustPanic HeaderMap :=
  headers_from_js_loop [] (JsHeaders.entries js)

/-! ## The body variant (body.rs) -/

/-- body.rs `Body`: text payload or an opaque host byte-stream handle. -/
inductive Body
  | Text (s : Str)
  | ReadableStream (handle : Nat)
deriving DecidableEq, Repr

/-! ## The request model (request.rs) -/

/-- web_sys::RequestCache. -/
inductive RequestCache
  | Default | NoStore | Reload | NoCache | ForceCache | OnlyIfCached
deriving DecidableEq, Repr

/-- web_sys::RequestCredentials. -/
inductive RequestCredentials
  | Omit | SameOrigin | Include
deriving DecidableEq, Repr

/-- web_sys::RequestMode. -/
inductive RequestMode
  | SameOrigin | NoCors | Cors | Navigate
deriving DecidableEq, Repr

/-- web_sys::RequestRedirect. -/
inductive RequestRedirect
  | Follow | Error | Manual
deriving DecidableEq, Repr

/-- web_sys::ReferrerPolicy. -/
inductive ReferrerPolicy
  | None | NoReferrer | NoReferrerWhenDowngrade | Origin | OriginWhenCrossOrigin
  | SameOrigin | StrictOrigin | StrictOriginWhenCrossOrigin | UnsafeUrl
deriving DecidableEq, Repr

/-- An `http::Method` (an arbitrary token string such as "GET"). -/
abbrev Method := Str

/-- request.rs `RequestInit`: the cached request-initialization data. -/
structure RequestInit where
  method : Method
  headers : HeaderMap
  body : Option Body
  cache : RequestCache
  credentials : RequestCredentials
  integrity : Str
  mode : RequestMode
  redirect : RequestRedirect
  referrer : Str
  referrer_policy : ReferrerPolicy
deriving DecidableEq, Repr

/-- request.rs `RequestBuilder`. -/
structure RequestBuilder where
  url : Str
  init : RequestInit
deriving DecidableEq, Repr

/-- request.rs `Request` (an immutable built request). -/
structure Request where
  url : Str
  init : RequestInit
deriving DecidableEq, Repr

/-- request.rs `RequestBuilder::new`: all policy fields at the
documented defaults. -/
def RequestBuilder.new (method : Method) (url : Str) : RequestBuilder :=
  { url
    init :=
      { method
        headers := []
        body := none
        cache := .Default
        credentials := .Omit
        integrity := []
        mode := .Cors
        redirect := .Follow
        referrer := "about:client".data
        referrer_policy := .None } }

/-- request.rs `RequestBuilder::headers`: the bulk setter replaces the
whole map with the collected iterator. -/
def RequestBuilder.headers (b : RequestBuilder) (ps : List (HeaderName × HeaderValue)) :
    RequestBuilder :=
  { b with init := { b.init with headers := collectHeaders ps } }

/-- request.rs `RequestBuilder::header`: insert-or-replace one header. -/
def RequestBuilder.header (b : RequestBuilder) (n : HeaderName) (v : HeaderValue) :
    RequestBuilder :=
  { b with init := { b.init with headers := b.init.headers.insertH n v } }

/-- request.rs `RequestBuilder::cache`. -/
def RequestBuilder.cache (b : RequestBuilder) (c : RequestCache) : RequestBuilder :=
  { b with init := { b.init with cache := c } }

/-- request.rs `RequestBuilder::build`: finalize with an empty body. -/
def RequestBuilder.build (b : RequestBuilder) : Request :=
  { url := b.url, init := b.init }

/-- request.rs `RequestBuilder::body`: finalize with a body. -/
def RequestBuilder.body (b : RequestBuilder) (body : Body) : Request :=
  { url := b.url, init := { b.init with body := some body } }

/-- request.rs `RequestBuilder::text`: finalize with a text body. -/
def RequestBuilder.text (b : RequestBuilder) (t : Str) : Request :=
  b.body (.Text t)

/-! ## Serialization and the crate error type -/

/-- An opaque `serde_json::Error` value. -/
structure SerdeError where
  code : Nat
deriving DecidableEq, Repr

/-- A serializable value, abstracted by the outcome of
`serde_json::to_string` on it (external serde code). -/
structure Serializable where
  toJsonString : Except SerdeError Str
deriving DecidableEq, Repr

/-- The external `serde_json::to_string` call. -/
def serdeToString (v : Serializable) : Except SerdeError Str :=
  v.toJsonString

/-- A host exception value thrown by a web_sys constructor. -/
inductive JsError
  | typeError | rangeError
deriving DecidableEq, Repr

/-- Modelled from the spec: the crate-level error type of gloo-net
(its lib.rs is not part of the translated sources). Following the error
taxonomy of the specification, a failing structured-to-text body
encoding is a serialization error, a rejected host fetch is a network
error, and a rejected host-object construction is a construction error
(the latter two both arise from `js_to_error` on a host exception,
distinguished by call site). -/
inductive Error
  | serializationError (e : SerdeError)
  | networkError (e : JsError)
  | constructionError (e : JsError)
deriving DecidableEq, Repr

/-- request.rs `RequestBuilder::json`: serialize, propagating a failure
with the question-mark operator, then finalize as a text body. -/
def RequestBuilder.json (b : RequestBuilder) (v : Serializable) : Except Error Request :=
  match serdeToString v with
  | .error e => .error (.serializationError e)
  | .ok s => .ok (b.text s)

/-! ## The response model (response.rs) -/

/-- An `http::StatusCode`; the crate invariant is 100 ≤ code ≤ 999. -/
abbrev StatusCode := Nat

/-- http `StatusCode::from_u16`: accepts 100..=999 only. -/
def StatusCode.from_u16 (n : Nat) : Option StatusCode :=
  if 100 ≤ n ∧ n ≤ 999 then some n else none

/-- http `StatusCode::default()` is `StatusCode::OK`, that is 200. -/
def StatusCode.defaultCode : StatusCode := 200

/-- http `StatusCode::as_u16`. -/
def StatusCode.as_u16 (c : StatusCode) : Nat := c

/-- response.rs `ResponseOptions`: the cached response data. -/
structure ResponseOptions where
  headers : HeaderMap
  status_code : StatusCode
  status_text : Str
deriving DecidableEq, Repr

/-- A host `web_sys::ResponseInit` record. -/
structure JsResponseInit where
  headers : JsHeaders
  status : Nat
  statusText : Str
deriving DecidableEq, Repr

/-- response.rs `ResponseOptions::into_raw`: encode the header map
(panics propagate from its unwraps) and copy status and status text. -/
def ResponseOptions.into_raw (o : ResponseOptions) : Except RustPanic JsResponseInit :=
  match headers_to_js o.headers with
  | .error e => .error e
  | .ok js => .ok { headers := js, status := o.status_code.as_u16, statusText := o.status_text }

/-- A JS value as read back through the `Reflect` API. -/
inductive JsVal
  | undef
  | num (n : Int)
  | str (s : Str)
deriving DecidableEq, Repr

/-- wasm_bindgen `JsValue::as_f64`: some only for a JS number. The JS
number is modelled as an integer; a fractional host value truncates
toward zero in the source's `as u16` cast, which no claim depends on. -/
def JsVal.as_f64 : JsVal → Option Int
  | .num n => some n
  | _ => none

/-- wasm_bindgen `JsValue::as_string`: some only for a JS string. -/
def JsVal.as_string : JsVal → Option Str
  | .str s => some s
  | _ => none

/-- The raw host object `ResponseOptions::from_raw` reads from: its
headers property (after the unchecked cast to Headers) and the JS
values of its status and statusText properties. -/
structure RawResponse where
  headers : JsHeaders
  status : JsVal
  statusText : JsVal
deriving DecidableEq, Repr

/-- Rust `as u16` on an f64: a saturating cast. -/
def toU16 (n : Int) : Nat :=
  if n < 0 then 0 else if 65535 < n then 65535 else n.toNat

/-- response.rs `ResponseOptions::from_raw` (lines 34-64): read the
status with `as_f64().unwrap_or(0.0) as u16` and repair it with
`StatusCode::from_u16(..).unwrap_or_default()`; read the status text
with `as_string().unwrap_or_default()`; decode the headers (whose
unwraps may panic). -/
def ResponseOptions.from_raw (r : RawResponse) : Except RustPanic ResponseOptions :=
  let status := toU16 ((r.status.as_f64).getD 0)
  match headers_from_js r.headers with
  | .error e => .error e
  | .ok hm =>
    .ok { headers := hm
          status_code := (StatusCode.from_u16 status).getD StatusCode.defaultCode
          status_text := (r.statusText.as_string).getD [] }

/-- response.rs `ResponseBuilder`. -/
structure ResponseBuilder where
  body : Option Body
  init : ResponseOptions
deriving DecidableEq, Repr

/-- response.rs `ResponseBuilder::new`. -/
def ResponseBuilder.new (status_code : StatusCode) : ResponseBuilder :=
  { body := none
    init := { headers := [], status_code, status_text := [] } }

/-- response.rs `ResponseBuilder::status`. -/
def ResponseBuilder.status (b : ResponseBuilder) (c : StatusCode) : ResponseBuilder :=
  { b with init := { b.init with status_code := c } }

/-- response.rs `ResponseBuilder::headers`: replaces the map. -/
def ResponseBuilder.headersSet (b : ResponseBuilder) (hs : HeaderMap) : ResponseBuilder :=
  { b with init := { b.init with headers := hs } }

/-- response.rs `ResponseBuilder::text`. -/
def ResponseBuilder.text (b : ResponseBuilder) (t : Str) : ResponseBuilder :=
  { b with body := some (.Text t) }

/-- The canonical name of the `http::header::CONTENT_TYPE` constant. -/
def contentTypeName : HeaderName := "content-type".data

/-- response.rs `ResponseBuilder::json` (lines 152-159): serialize with
`serde_json::to_string(json).unwrap()` -- a failure PANICS -- then
insert the Content-Type header `application/json` (whose parse is
statically infallible). -/
def ResponseBuilder.json (b : ResponseBuilder) (v : Serializable) :
    Except RustPanic ResponseBuilder :=
  match serdeToString v with
  | .error _ => .error .panic
  | .ok s =>
    .ok { b with
          body := some (.Text s)
          init := { b.init with
                    headers := b.init.headers.insertH contentTypeName "application/json".data } }

/-! ## The host Response constructor and the built Response -/

/-- A host `web_sys::Response` object. -/
structure HostResponse where
  headers : JsHeaders
  status : Nat
  statusText : Str
  body : Option Body
deriving DecidableEq, Repr

/-- Reason-phrase characters allowed in a statusText by the host. -/
def reasonPhraseChar (c : Char) : Bool :=
  decide (c.toNat = 9 ∨ (32 ≤ c.toNat ∧ c.toNat ≠ 127))

/-- Null-body statuses of the Fetch specification. -/
def nullBodyStatus (n : Nat) : Bool :=
  decide (n = 101 ∨ n = 103 ∨ n = 204 ∨ n = 205 ∨ n = 304)

/-- The default Content-Type entry the host adds when a response is
constructed from a string body without one. -/
def addDefaultContentType (body : Option Body) (hs : JsHeaders) : JsHeaders :=
  match body with
  | some (.Text _) =>
    if hs.any (fun p => decide (lowerStr p.1 = contentTypeName)) then hs
    else hs ++ [(contentTypeName, "text/plain;charset=UTF-8".data)]
  | _ => hs

/-- The host `Response` constructor (web_sys
`Response::new_with_opt_str_and_init` and
`new_with_opt_readable_stream_and_init`), per the WHATWG Fetch
specification: status outside 200..=599 throws a RangeError; a bad
statusText or a body on a null-body status throws a TypeError. -/
def hostNewResponse (body : Option Body) (init : JsResponseInit) :
    Except JsError HostResponse :=
  if ¬ (200 ≤ init.status ∧ init.status ≤ 599) then .error .rangeError
  else if ¬ init.statusText.all reasonPhraseChar then .error .typeError
  else if body.isSome && nullBodyStatus init.status then .error .typeError
  else .ok { headers := addDefaultContentType body init.headers
             status := init.status
             statusText := init.statusText
             body }

/-- response.rs `Response`: the raw host object plus the cached
`ResponseOptions` snapshot. -/
structure Response where
  raw : HostResponse
  init : ResponseOptions
deriving DecidableEq, Repr

/-- response.rs `Response::from_raw`: snapshot the host object through
`ResponseOptions::from_raw` (reading its headers, status and statusText
properties through Reflect). -/
def Response.from_raw (raw : HostResponse) : Except RustPanic Response :=
  match ResponseOptions.from_raw
      { headers := raw.headers, status := .num raw.status, statusText := .str raw.statusText } with
  | .error e => .error e
  | .ok o => .ok { raw, init := o }

/-- response.rs `ResponseBuilder::build` (lines 163-179): convert the
options to a host init (unwraps may panic), call the host constructor
matching the body variant, map a host exception through `js_to_error`
(a ConstructionError by the spec's taxonomy), and wrap a success via
`Response::from_raw`. -/
def ResponseBuilder.build (b : ResponseBuilder) :
    Except RustPanic (Except Error Response) :=
  match b.init.into_raw with
  | .error e => .error e
  | .ok init =>
    match hostNewResponse b.body init with
    | .error e => .ok (.error (.constructionError e))
    | .ok raw =>
      match Response.from_raw raw with
      | .error e => .error e
      | .ok resp => .ok (.ok resp)

/-! ## Helper lemmas about the header map -/

theorem getAll_nil (n : HeaderName) : HeaderMap.getAll [] n = [] := rfl

theorem getAll_cons (p : HeaderName × HeaderValue) (ps : HeaderMap) (n : HeaderName) :
    HeaderMap.getAll (p :: ps) n =
      if p.1 = n then p.2 :: HeaderMap.getAll ps n else HeaderMap.getAll ps n := by
  by_cases h : p.1 = n <;> simp [HeaderMap.getAll, List.filter_cons, h]

theorem getAll_removeAll (m : HeaderMap) (n : HeaderName) :
    HeaderMap.getAll (HeaderMap.removeAll m n) n = [] := by
  induction m with
  | nil => rfl
  | cons p ps ih =>
    by_cases h : p.1 = n
    · simpa [HeaderMap.removeAll, List.filter_cons, h] using ih
    · have : HeaderMap.removeAll (p :: ps) n = p :: HeaderMap.removeAll ps n := by
        simp [HeaderMap.removeAll, List.filter_cons, h]
      rw [this, getAll_cons, if_neg h]
      exact ih

theorem getAll_insertH (m : HeaderMap) (n : HeaderName) (v : HeaderValue) :
    HeaderMap.getAll (HeaderMap.insertH m n v) n = [v] := by
  induction m with
  | nil => simp [HeaderMap.insertH, getAll_cons, getAll_nil]
  | cons p ps ih =>
    by_cases h : p.1 = n
    · rw [HeaderMap.insertH, if_pos h, getAll_cons, if_pos rfl, getAll_removeAll]
    · rw [HeaderMap.insertH, if_neg h, getAll_cons, if_neg h]
      exact ih

/-! ## Helper lemmas about the encode loop -/

/-- A pair the encode loop processes without panicking: the value is
visible ASCII and the host accepts the append. -/
def pairAccepted (p : HeaderName × HeaderValue) : Bool :=
  p.2.all toStrOkChar && (isJsHeaderName p.1 && isJsHeaderValue (trimWs p.2))

theorem headers_to_js_loop_ok (m : HeaderMap) :
    ∀ js : JsHeaders, m.all pairAccepted = true →
    headers_to_js_loop js m = .ok (js ++ m.map (fun p => (p.1, trimWs p.2))) := by
  induction m with
  | nil => intro js _; simp [headers_to_js_loop]
  | cons p ps ih =>
    intro js h
    rw [List.all_cons, Bool.and_eq_true] at h
    obtain ⟨hp, hps⟩ := h
    rw [pairAccepted, Bool.and_eq_true] at hp
    obtain ⟨h1, h2⟩ := hp
    rw [headers_to_js_loop, HeaderValue.toStr, if_pos h1]
    simp only [JsHeaders.append]
    rw [if_pos h2]
    show headers_to_js_loop (js ++ [(p.1, trimWs p.2)]) ps = _
    rw [ih _ hps]
    simp

theorem toStrOk_imp_jsOk (c : Char) (h : toStrOkChar c = true) : jsValueOkChar c = true := by
  rw [toStrOkChar, decide_eq_true_eq] at h
  rw [jsValueOkChar, decide_eq_true_eq]
  omega

theorem toStrOk_imp_fromStrOk (c : Char) (h : toStrOkChar c = true) :
    fromStrOkChar c = true := by
  rw [toStrOkChar, decide_eq_true_eq] at h
  rw [fromStrOkChar, decide_eq_true_eq]
  omega

/-! ## Helper lemmas about the decode loop -/

/-- One host entry decodes without panic. -/
def entryParses (e : Str × Str) : Bool :=
  match HeaderName.parse e.1, HeaderValue.parse e.2 with
  | .ok _, .ok _ => true
  | _, _ => false

theorem headers_from_js_loop_panics (l : List (Str × Str)) :
    ∀ m : HeaderMap, l.all entryParses = false →
    headers_from_js_loop m l = .error .panic := by
  induction l with
  | nil => intro m h; simp at h
  | cons e es ih =>
    intro m h
    rw [List.all_cons, Bool.and_eq_false_iff] at h
    rw [headers_from_js_loop]
    cases hn : HeaderName.parse e.1 with
    | error err => cases err; rfl
    | ok n =>
      cases hv : HeaderValue.parse e.2 with
      | error err => cases err; rfl
      | ok v =>
        have he : entryParses e = true := by rw [entryParses, hn, hv]
        rcases h with h | h
        · rw [he] at h; cases h
        · exact ih _ h

theorem headers_from_js_loop_nice (l : List (Str × Str)) :
    ∀ m : HeaderMap,
    (∀ e ∈ l, HeaderName.parse e.1 = .ok e.1 ∧ HeaderValue.parse e.2 = .ok e.2) →
    headers_from_js_loop m l = .ok (m ++ l) := by
  induction l with
  | nil => intro m _; simp [headers_from_js_loop]
  | cons e es ih =>
    intro m h
    have he := h e (List.mem_cons_self e es)
    have hes : ∀ x ∈ es, HeaderName.parse x.1 = .ok x.1 ∧ HeaderValue.parse x.2 = .ok x.2 :=
      fun x hx => h x (List.mem_cons_of_mem e hx)
    rw [headers_from_js_loop, he.1, he.2]
    show headers_from_js_loop (HeaderMap.appendH m e.1 e.2) es = .ok (m ++ e :: es)
    rw [ih _ hes]
    simp [HeaderMap.appendH]

/-! ## Helper lemmas about sorting and deduplication -/

theorem mem_insertLe (le : α → α → Bool) (a x : α) (l : List α) :
    x ∈ insertLe le a l ↔ x = a ∨ x ∈ l := by
  induction l with
  | nil => simp [insertLe]
  | cons b bs ih =>
    rw [insertLe]
    by_cases h : le a b = true
    · simp [h]
    · simp only [if_neg h, List.mem_cons, ih]
      tauto

theorem mem_sortLe (le : α → α → Bool) (x : α) (l : List α) :
    x ∈ sortLe le l ↔ x ∈ l := by
  induction l with
  | nil => simp [sortLe]
  | cons a as ih =>
    rw [sortLe, mem_insertLe]
    simp [ih]

theorem mem_dedupKeys (x : Str) (l : List Str) :
    x ∈ keyNames.dedupKeys l ↔ x ∈ l := by
  induction l with
  | nil => simp [keyNames.dedupKeys]
  | cons a as ih =>
    rw [keyNames.dedupKeys]
    by_cases h : a ∈ as
    · rw [if_pos h]
      simp only [List.mem_cons, ih]
      constructor
      · exact Or.inr
      · rintro (rfl | hx)
        · exact h
        · exact hx
    · rw [if_neg h]
      simp [ih]

theorem dedupKeys_of_nodup (l : List Str) (h : l.Nodup) : keyNames.dedupKeys l = l := by
  induction l with
  | nil => rfl
  | cons a as ih =>
    rw [List.nodup_cons] at h
    rw [keyNames.dedupKeys, if_neg h.1, ih h.2]

/-! ## Well-formed header maps and the round-trip machinery -/

/-- A grammar-valid header name as stored in a `HeaderMap`: nonempty
token characters, already lowercase (the `HeaderName` invariant). -/
def wfName (s : HeaderName) : Bool :=
  decide (s ≠ []) && s.all (fun c => isTokenChar c && !isUpperAscii c)

/-- A grammar-valid header value: visible ASCII (so `to_str` succeeds
and both grammars accept it) with no surrounding HTTP whitespace (the
RFC field-value grammar; equivalently the host normalization fixes it). -/
def wfValue (v : HeaderValue) : Bool :=
  v.all toStrOkChar && decide (trimWs v = v)

/-- A grammar-valid (name, value) pair. -/
def wfPair (p : HeaderName × HeaderValue) : Bool :=
  wfName p.1 && wfValue p.2

theorem lowerChar_eq_of_not_upper (c : Char) (h : isUpperAscii c = false) :
    lowerChar c = c := by
  rw [isUpperAscii] at h
  rw [lowerChar, if_neg]
  intro hc
  rw [decide_eq_false_iff_not] at h
  exact h hc

theorem lowerStr_eq_of_wfName (s : HeaderName) (h : wfName s = true) : lowerStr s = s := by
  rw [wfName, Bool.and_eq_true, List.all_eq_true] at h
  rw [lowerStr]
  have : ∀ c ∈ s, lowerChar c = c := by
    intro c hc
    have hclet := h.2 c hc
    rw [Bool.and_eq_true, Bool.not_eq_true'] at hclet
    exact lowerChar_eq_of_not_upper c hclet.2
  calc s.map lowerChar = s.map id := List.map_congr_left this
  _ = s := List.map_id s

theorem wfPair_pairAccepted (p : HeaderName × HeaderValue) (h : wfPair p = true) :
    pairAccepted p = true := by
  rw [wfPair, Bool.and_eq_true, wfName, wfValue, Bool.and_eq_true, Bool.and_eq_true] at h
  obtain ⟨⟨hne, htok⟩, hvis, htrim⟩ := h
  rw [decide_eq_true_eq] at htrim
  rw [pairAccepted, Bool.and_eq_true]
  refine ⟨hvis, ?_⟩
  rw [Bool.and_eq_true, isJsHeaderName, Bool.and_eq_true]
  refine ⟨⟨hne, ?_⟩, ?_⟩
  · rw [List.all_eq_true] at htok ⊢
    intro c hc
    have := htok c hc
    rw [Bool.and_eq_true] at this
    exact this.1
  · rw [isJsHeaderValue, htrim, List.all_eq_true]
    rw [List.all_eq_true] at hvis
    exact fun c hc => toStrOk_imp_jsOk c (hvis c hc)

/-- Under the grammar precondition the encode side is the identity on
the header list: every pair is appended unchanged. -/
theorem headers_to_js_wf (m : HeaderMap) (h : m.all wfPair = true) :
    headers_to_js m = .ok m := by
  have hacc : m.all pairAccepted = true := by
    rw [List.all_eq_true] at h ⊢
    exact fun p hp => wfPair_pairAccepted p (h p hp)
  rw [headers_to_js, JsHeaders.new, headers_to_js_loop_ok m [] hacc]
  rw [List.nil_append]
  have : m.map (fun p => (p.1, trimWs p.2)) = m := by
    have hmap : ∀ p ∈ m, (fun p => (p.1, trimWs p.2)) p = id p := by
      intro p hp
      rw [List.all_eq_true] at h
      have := h p hp
      rw [wfPair, Bool.and_eq_true, wfValue, Bool.and_eq_true] at this
      have htrim := this.2.2
      rw [decide_eq_true_eq] at htrim
      simp [htrim]
    rw [List.map_congr_left hmap, List.map_id]
  rw [this]

theorem filter_key_nil (m : JsHeaders) (k : Str)
    (hid : ∀ p ∈ m, lowerStr p.1 = p.1) (hk : k ∉ m.map Prod.fst) :
    m.filter (fun p => decide (lowerStr p.1 = k)) = [] := by
  induction m with
  | nil => rfl
  | cons p ps ih =>
    rw [List.map_cons] at hk
    have hk1 : p.1 ≠ k := by
      intro he
      exact hk (he ▸ List.mem_cons_self p.1 (ps.map Prod.fst))
    have hk2 : k ∉ ps.map Prod.fst := fun he => hk (List.mem_cons_of_mem _ he)
    have hc : decide (lowerStr p.1 = k) = false := by
      rw [hid p (List.mem_cons_self p ps)]
      exact decide_eq_false hk1
    rw [List.filter_cons, hc]
    exact ih (fun q hq => hid q (List.mem_cons_of_mem p hq)) hk2

theorem valuesFor_singleton (m : JsHeaders) (k v : Str)
    (hid : ∀ p ∈ m, lowerStr p.1 = p.1) (hnd : (m.map Prod.fst).Nodup)
    (hm : (k, v) ∈ m) : valuesFor m k = [v] := by
  induction m with
  | nil => cases hm
  | cons p ps ih =>
    rw [List.map_cons, List.nodup_cons] at hnd
    have hidp := hid p (List.mem_cons_self p ps)
    have hidps : ∀ q ∈ ps, lowerStr q.1 = q.1 := fun q hq => hid q (List.mem_cons_of_mem p hq)
    rcases List.mem_cons.mp hm with he | he
    · have hp : p = (k, v) := he.symm
      subst hp
      have hc : decide (lowerStr (k, v).1 = k) = true := by
        rw [hidp]
        exact decide_eq_true rfl
      rw [valuesFor, List.filter_cons, hc]
      rw [filter_key_nil ps k hidps hnd.1]
      rfl
    · have hkin : k ∈ ps.map Prod.fst := List.mem_map.mpr ⟨(k, v), he, rfl⟩
      have hne : p.1 ≠ k := by
        intro h
        exact hnd.1 (h ▸ hkin)
      have hc : decide (lowerStr p.1 = k) = false := by
        rw [hidp]
        exact decide_eq_false hne
      rw [valuesFor, List.filter_cons, hc]
      exact ih hidps hnd.2 he

theorem keyNames_of_wf (m : JsHeaders) (hid : ∀ p ∈ m, lowerStr p.1 = p.1)
    (hnd : (m.map Prod.fst).Nodup) : keyNames m = m.map Prod.fst := by
  rw [keyNames]
  have h : m.map (fun p => lowerStr p.1) = m.map Prod.fst :=
    List.map_congr_left (fun p hp => hid p hp)
  rw [h, dedupKeys_of_nodup _ hnd]

theorem entries_mem_iff (m : JsHeaders) (hid : ∀ p ∈ m, lowerStr p.1 = p.1)
    (hnd : (m.map Prod.fst).Nodup) (q : Str × Str) :
    q ∈ JsHeaders.entries m ↔ q ∈ m := by
  rw [JsHeaders.entries, keyNames_of_wf m hid hnd]
  constructor
  · intro hq
    obtain ⟨k, hk, he⟩ := List.mem_map.mp hq
    rw [mem_sortLe] at hk
    obtain ⟨p, hp, hpk⟩ := List.mem_map.mp hk
    have hpm : (k, p.2) ∈ m := by
      rw [← hpk]
      simpa using hp
    have hv : valuesFor m k = [p.2] := valuesFor_singleton m k p.2 hid hnd hpm
    rw [← he, hv]
    show (k, p.2) ∈ m
    exact hpm
  · intro hq
    apply List.mem_map.mpr
    refine ⟨q.1, ?_, ?_⟩
    · rw [mem_sortLe]
      exact List.mem_map.mpr ⟨q, hq, rfl⟩
    · have hqm : (q.1, q.2) ∈ m := by simpa using hq
      have hv : valuesFor m q.1 = [q.2] := valuesFor_singleton m q.1 q.2 hid hnd hqm
      rw [hv]
      show (q.1, q.2) = q
      exact Prod.mk.eta

theorem entries_parse_nice (m : JsHeaders) (hwf : ∀ p ∈ m, wfPair p = true)
    (hid : ∀ p ∈ m, lowerStr p.1 = p.1) (hnd : (m.map Prod.fst).Nodup) :
    ∀ e ∈ JsHeaders.entries m,
      HeaderName.parse e.1 = .ok e.1 ∧ HeaderValue.parse e.2 = .ok e.2 := by
  intro e he
  rw [entries_mem_iff m hid hnd] at he
  have hw := hwf e he
  rw [wfPair, Bool.and_eq_true, wfName, Bool.and_eq_true, wfValue, Bool.and_eq_true] at hw
  obtain ⟨⟨hne, htok⟩, hvis, _⟩ := hw
  have htok1 : e.1.all isTokenChar = true := by
    rw [List.all_eq_true] at htok ⊢
    intro c hc
    have hcc := htok c hc
    rw [Bool.and_eq_true] at hcc
    exact hcc.1
  constructor
  · have hcond : (decide (e.1 ≠ []) && e.1.all isTokenChar) = true := by
      rw [Bool.and_eq_true]
      exact ⟨hne, htok1⟩
    rw [HeaderName.parse, if_pos hcond,
      lowerStr_eq_of_wfName e.1 (by rw [wfName, Bool.and_eq_true]; exact ⟨hne, htok⟩)]
  · have hcond : e.2.all fromStrOkChar = true := by
      rw [List.all_eq_true] at hvis ⊢
      exact fun c hc => toStrOk_imp_fromStrOk c (hvis c hc)
    rw [HeaderValue.parse, if_pos hcond]

/-! ## Claim C1 -/

/-- Claim C1 as stated is false: on a host Headers object holding an
entry whose value is outside the header grammar (here the single byte
0x7F), `headers_from_js` does not propagate a recoverable decode error
to its caller -- its return type has no error channel -- but aborts with
a panic from the failing `unwrap`. -/
theorem c1_counterexample :
    headers_from_js [("x-a".data, [Char.ofNat 127])] = .error RustPanic.panic := by decide

/-- Claim C1 (amended): whenever any entry iterated from the host
Headers object has a name or value the header grammar rejects,
`headers_from_js` fails hard with a panic; in particular no malformed
entry is ever silently dropped (no `HeaderMap` is returned at all). -/
theorem c1_decode_panics_on_invalid (js : JsHeaders)
    (h : (JsHeaders.entries js).all entryParses = false) :
    headers_from_js js = .error .panic :=
  headers_from_js_loop_panics _ _ h

/-- Witness for C1 at the concrete host object with value byte 0x7F. -/
theorem c1_witness :
    (JsHeaders.entries [("x-a".data, [Char.ofNat 127])]).all entryParses = false ∧
    headers_from_js [("x-a".data, [Char.ofNat 127])] = .error .panic :=
  ⟨by decide, c1_decode_panics_on_invalid _ (by decide)⟩

/-! ## Claim C2 -/

/-- Claim C2 as stated is false: the grammar-valid map with two values
under the name "accept" does not round-trip to the same set of pairs;
the host combines the two values into the single entry "a, b", so the
pair ("accept", "a") of the original map is absent from the decoded
map. -/
theorem c2_counterexample :
    headers_to_js [("accept".data, "a".data), ("accept".data, "b".data)] =
      .ok [("accept".data, "a".data), ("accept".data, "b".data)] ∧
    headers_from_js [("accept".data, "a".data), ("accept".data, "b".data)] =
      .ok [("accept".data, "a, b".data)] ∧
    ("accept".data, "a".data) ∈
      ([("accept".data, "a".data), ("accept".data, "b".data)] : HeaderMap) ∧
    ("accept".data, "a".data) ∉ ([("accept".data, "a, b".data)] : HeaderMap) := by decide

/-- Claim C2 (amended): for every `HeaderMap` whose names and values are
grammar-valid AND which holds at most one value per name, decoding the
encoding succeeds and yields a `HeaderMap` with exactly the same set of
(name, value) pairs (names are already canonical lowercase, so
case-insensitive equality is plain equality here). -/
theorem c2_roundtrip (m : HeaderMap)
    (hwf : m.all wfPair = true) (hnd : (m.map Prod.fst).Nodup) :
    ∃ js mm, headers_to_js m = .ok js ∧ headers_from_js js = .ok mm ∧
      ∀ q, q ∈ mm ↔ q ∈ m := by
  have hwfp : ∀ p ∈ m, wfPair p = true := List.all_eq_true.mp hwf
  have hid : ∀ p ∈ m, lowerStr p.1 = p.1 := by
    intro p hp
    have hw := hwfp p hp
    rw [wfPair, Bool.and_eq_true] at hw
    exact lowerStr_eq_of_wfName p.1 hw.1
  refine ⟨m, JsHeaders.entries m, headers_to_js_wf m hwf, ?_,
    fun q => entries_mem_iff m hid hnd q⟩
  rw [headers_from_js,
    headers_from_js_loop_nice _ [] (entries_parse_nice m hwfp hid hnd),
    List.nil_append]

/-- Witness for C2 at a concrete two-entry map. -/
theorem c2_witness :
    ([("accept".data, "a".data), ("x-test".data, "b".data)] : HeaderMap).all wfPair = true ∧
    (([("accept".data, "a".data), ("x-test".data, "b".data)] : HeaderMap).map Prod.fst).Nodup ∧
    (∃ js mm,
      headers_to_js [("accept".data, "a".data), ("x-test".data, "b".data)] = .ok js ∧
      headers_from_js js = .ok mm ∧
      ∀ q, q ∈ mm ↔ q ∈ ([("accept".data, "a".data), ("x-test".data, "b".data)] : HeaderMap)) :=
  ⟨by decide, by decide, c2_roundtrip _ (by decide) (by decide)⟩

/-! ## Claim C4 -/

/-- Claim C4: for every method and url, a builder with no setters
called yields on build a Request with cache=Default, credentials=Omit,
integrity="", mode=Cors, redirect=Follow, referrer="about:client",
referrer policy=None, empty headers and no body. -/
theorem c4_builder_defaults (method : Method) (url : Str) :
    ((RequestBuilder.new method url).build.init.cache = RequestCache.Default) ∧
    ((RequestBuilder.new method url).build.init.credentials = RequestCredentials.Omit) ∧
    ((RequestBuilder.new method url).build.init.integrity = []) ∧
    ((RequestBuilder.new method url).build.init.mode = RequestMode.Cors) ∧
    ((RequestBuilder.new method url).build.init.redirect = RequestRedirect.Follow) ∧
    ((RequestBuilder.new method url).build.init.referrer = "about:client".data) ∧
    ((RequestBuilder.new method url).build.init.referrer_policy = ReferrerPolicy.None) ∧
    ((RequestBuilder.new method url).build.init.headers = []) ∧
    ((RequestBuilder.new method url).build.init.body = none) :=
  ⟨rfl, rfl, rfl, rfl, rfl, rfl, rfl, rfl, rfl⟩

/-! ## Claim C5 -/

/-- Claim C5 as stated is false for the Response side: on a value whose
serialization fails, `ResponseBuilder::json` does not propagate a
serialization error -- it returns the builder type with no error
channel and panics on the failing `unwrap`. -/
theorem c5_counterexample :
    (ResponseBuilder.new 200).json ⟨.error ⟨0⟩⟩ = .error RustPanic.panic := by decide

/-- Claim C5 (amended): when serialization of the value fails,
`RequestBuilder::json` propagates the failure to the caller as a
SerializationError, while `ResponseBuilder::json` panics instead of
propagating anything. -/
theorem c5_serialization_error (b : RequestBuilder) (rb : ResponseBuilder)
    (v : Serializable) (e : SerdeError) (h : serdeToString v = .error e) :
    b.json v = .error (.serializationError e) ∧ rb.json v = .error .panic := by
  constructor
  · rw [RequestBuilder.json, h]
  · rw [ResponseBuilder.json, h]

/-- Witness for C5 at a concrete failing serialization. -/
theorem c5_witness :
    serdeToString ⟨.error ⟨0⟩⟩ = .error ⟨0⟩ ∧
    ((RequestBuilder.new "GET".data "u".data).json ⟨.error ⟨0⟩⟩ =
        .error (.serializationError ⟨0⟩) ∧
      (ResponseBuilder.new 200).json ⟨.error ⟨0⟩⟩ = .error .panic) :=
  ⟨rfl, c5_serialization_error (RequestBuilder.new "GET".data "u".data)
    (ResponseBuilder.new 200) ⟨.error ⟨0⟩⟩ ⟨0⟩ rfl⟩

/-! ## Claim C6 -/

/-- Claim C6 as stated is false: when the host object supplies no valid
numeric status (here the property is undefined), the snapshot records
the status code 200 (the default of `http::StatusCode`), not the
claimed unknown/uninitialized value 0; indeed 0 is not representable in
`http::StatusCode` at all. -/
theorem c6_counterexample :
    ResponseOptions.from_raw { headers := [], status := .undef, statusText := .undef } =
      .ok { headers := [], status_code := 200, status_text := [] } ∧ (200 : Nat) ≠ 0 :=
  ⟨by decide, by decide⟩

/-- Claim C6 (amended): the cached status code always lies in 100-999
(the `http::StatusCode` range), and when the host object supplies no
valid numeric status the snapshot taken by `ResponseOptions::from_raw`
records the default status 200. -/
theorem c6_status_snapshot (r : RawResponse) (o : ResponseOptions)
    (h : ResponseOptions.from_raw r = .ok o) :
    (100 ≤ o.status_code ∧ o.status_code ≤ 999) ∧
    (r.status.as_f64 = none → o.status_code = 200) := by
  rw [ResponseOptions.from_raw] at h
  cases hh : headers_from_js r.headers with
  | error e => rw [hh] at h; cases h
  | ok hm =>
    rw [hh] at h
    injection h with h
    subst h
    constructor
    · show 100 ≤ (StatusCode.from_u16 _).getD StatusCode.defaultCode ∧
        (StatusCode.from_u16 _).getD StatusCode.defaultCode ≤ 999
      rw [StatusCode.from_u16]
      by_cases hs : 100 ≤ toU16 ((r.status.as_f64).getD 0) ∧ toU16 ((r.status.as_f64).getD 0) ≤ 999
      · rw [if_pos hs]
        exact hs
      · rw [if_neg hs]
        exact ⟨by decide, by decide⟩
    · intro hnone
      show (StatusCode.from_u16 _).getD StatusCode.defaultCode = 200
      rw [hnone]
      decide

/-- Witness for C6 at a host object with an undefined status. -/
theorem c6_witness :
    ResponseOptions.from_raw { headers := [], status := .undef, statusText := .undef } =
      .ok { headers := [], status_code := 200, status_text := [] } ∧
    ((100 ≤ (200 : Nat) ∧ (200 : Nat) ≤ 999) ∧
      (JsVal.as_f64 .undef = none → (200 : Nat) = 200)) :=
  ⟨by decide, c6_status_snapshot { headers := [], status := .undef, statusText := .undef }
    { headers := [], status_code := 200, status_text := [] } (by decide)⟩

/-! ## Claim C7 -/

/-- Claim C7: setting a header twice under one name leaves exactly the
second value under that name (all prior values replaced), and the bulk
headers setter replaces the entire map with the collected pairs,
whatever was staged before. -/
theorem c7_header_overwrite (b : RequestBuilder) (n : HeaderName) (v1 v2 : HeaderValue)
    (ps : List (HeaderName × HeaderValue)) :
    HeaderMap.getAll (((b.header n v1).header n v2).init.headers) n = [v2] ∧
    (RequestBuilder.headers b ps).init.headers = collectHeaders ps :=
  ⟨getAll_insertH _ n v2, rfl⟩

/-! ## Claim C8 -/

/-- Claim C8: on a successfully serialized value,
`RequestBuilder::json` leaves the built Request's headers exactly as
staged (no Content-Type added), while `ResponseBuilder::json` sets the
builder's Content-Type header to exactly application/json. -/
theorem c8_json_content_type (b : RequestBuilder) (rb : ResponseBuilder)
    (v : Serializable) (s : Str) (h : serdeToString v = .ok s) :
    (∃ r : Request, b.json v = .ok r ∧ r.init.headers = b.init.headers) ∧
    (∃ rb2 : ResponseBuilder, rb.json v = .ok rb2 ∧
      HeaderMap.getAll rb2.init.headers contentTypeName = ["application/json".data]) := by
  constructor
  · refine ⟨b.text s, ?_, rfl⟩
    rw [RequestBuilder.json, h]
  · refine ⟨{ rb with body := some (.Text s), init := { rb.init with headers := rb.init.headers.insertH contentTypeName "application/json".data } }, ?_, ?_⟩
    · rw [ResponseBuilder.json, h]
    · exact getAll_insertH rb.init.headers contentTypeName "application/json".data

/-- Witness for C8 at a value serializing to "42". -/
theorem c8_witness :
    serdeToString ⟨.ok "42".data⟩ = .ok "42".data ∧
    ((∃ r : Request, (RequestBuilder.new "GET".data "u".data).json ⟨.ok "42".data⟩ = .ok r ∧
        r.init.headers = (RequestBuilder.new "GET".data "u".data).init.headers) ∧
      (∃ rb2 : ResponseBuilder, (ResponseBuilder.new 200).json ⟨.ok "42".data⟩ = .ok rb2 ∧
        HeaderMap.getAll rb2.init.headers contentTypeName = ["application/json".data])) :=
  ⟨rfl, c8_json_content_type (RequestBuilder.new "GET".data "u".data)
    (ResponseBuilder.new 200) ⟨.ok "42".data⟩ "42".data rfl⟩

/-! ## Claim C9 -/

/-- Claim C9: whenever the host Response constructor rejects the
assembled options and body, `ResponseBuilder::build` returns an Err
carrying a ConstructionError (it does not panic on this path). -/
theorem c9_build_construction_error (b : ResponseBuilder) (init : JsResponseInit)
    (e : JsError) (h1 : b.init.into_raw = .ok init)
    (h2 : hostNewResponse b.body init = .error e) :
    b.build = .ok (.error (.constructionError e)) := by
  rw [ResponseBuilder.build]
  simp only [h1, h2]

/-- Witness for C9: a 204 response with a text body "x" is rejected by
the platform rule forbidding a body on a null-body status, and build
surfaces this as a ConstructionError value, not a panic. -/
theorem c9_witness :
    ((ResponseBuilder.new 204).text "x".data).init.into_raw =
      .ok { headers := [], status := 204, statusText := [] } ∧
    hostNewResponse ((ResponseBuilder.new 204).text "x".data).body
      { headers := [], status := 204, statusText := [] } = .error .typeError ∧
    ((ResponseBuilder.new 204).text "x".data).build =
      .ok (.error (.constructionError .typeError)) :=
  ⟨by decide, by decide,
    c9_build_construction_error ((ResponseBuilder.new 204).text "x".data)
      { headers := [], status := 204, statusText := [] } .typeError (by decide) (by decide)⟩

/-! ## Claim C10 -/

/-- Claim C10 as stated is false in one detail: the host append
operation stores the whitespace-normalized value, so the returned
Headers object need not contain the pair itself when the value carries
surrounding whitespace. The input below satisfies the claim's
precondition (visible-ASCII value, accepted by append), yet the pair
("x-a", " v") is not in the result -- only ("x-a", "v") is. -/
theorem c10_counterexample :
    (" v".data).all toStrOkChar = true ∧
    isJsHeaderName "x-a".data = true ∧
    isJsHeaderValue (trimWs " v".data) = true ∧
    headers_to_js [("x-a".data, " v".data)] = .ok [("x-a".data, "v".data)] ∧
    ("x-a".data, " v".data) ∉ ([("x-a".data, "v".data)] : JsHeaders) := by decide

/-- Claim C10 (amended): for every `HeaderMap` whose values are
visible-ASCII and whose pairs the host append accepts, `headers_to_js`
is total -- none of its internal unwraps can fire -- and the returned
host Headers object contains, for every pair of the map, the entry with
that name and the whitespace-normalized value. -/
theorem c10_encode_total (m : HeaderMap) (h : m.all pairAccepted = true) :
    ∃ js : JsHeaders, headers_to_js m = .ok js ∧
      ∀ p ∈ m, (p.1, trimWs p.2) ∈ js := by
  refine ⟨m.map (fun p => (p.1, trimWs p.2)), ?_, ?_⟩
  · rw [headers_to_js, JsHeaders.new, headers_to_js_loop_ok m [] h, List.nil_append]
  · intro p hp
    exact List.mem_map_of_mem _ hp

/-- Witness for C10 at a concrete singleton map. -/
theorem c10_witness :
    ([("x-a".data, "v".data)] : HeaderMap).all pairAccepted = true ∧
    (∃ js : JsHeaders, headers_to_js [("x-a".data, "v".data)] = .ok js ∧
      ∀ p ∈ ([("x-a".data, "v".data)] : HeaderMap), (p.1, trimWs p.2) ∈ js) :=
  ⟨by decide, c10_encode_total [("x-a".data, "v".data)] (by decide)⟩

end Gloo
